import Mathlib

/-!
Shallow embedding of the real-time audio pipeline of the Huddle01 examples
repository (python sources), covering:

* `AudioProcessor` (the Chunker / ChunkAccumulator) from
  `src/python/conferencing/transcribe.py`;
* `BotAudioTrack` (FrameStore + Pacer) from
  `src/python/conferencing/custom/bot_audio_track.py`;
* the inbound message dispatch of `OpenBot` (ProtocolSession) from
  `src/python/chatbot/open_ai.py`.

Bytes are modelled as `Nat` values (each `< 256` where produced), sample data
as `Int` (signed 16-bit values), byte strings as `List Nat`, and the audio
FIFO as a `List Int` of buffered samples.
-/

/-! ### Chunker: `AudioProcessor` (transcribe.py lines 25-57) -/

/-- `AudioProcessor.PREFERRED_CHUNK_SIZE = 24576`. -/
def PREFERRED_CHUNK_SIZE : Nat := 24576

/-- `AudioProcessor`: owns a growable byte buffer (`self.buffer = bytearray()`). -/
structure AudioProcessor where
  buffer : List Nat
deriving Repr, DecidableEq

/-- A fresh accumulator, as built by `AudioProcessor.__init__`. -/
def AudioProcessor.fresh : AudioProcessor := ⟨[]⟩

/-- The `while len(self.buffer) >= self.PREFERRED_CHUNK_SIZE` loop of
`add_audio`: repeatedly slice a `PREFERRED_CHUNK_SIZE`-byte head off the
buffer, collecting the slices in order; returns (chunks, final buffer). -/
def chunkLoop (buf : List Nat) : List (List Nat) × List Nat :=
  if h : PREFERRED_CHUNK_SIZE ≤ buf.length then
    let rest := buf.drop PREFERRED_CHUNK_SIZE
    let out := chunkLoop rest
    (buf.take PREFERRED_CHUNK_SIZE :: out.1, out.2)
  else
    ([], buf)
termination_by buf.length
decreasing_by
  simp only [List.length_drop]
  have hpos : 0 < PREFERRED_CHUNK_SIZE := by decide
  omega

/-- `AudioProcessor.add_audio`: extend the buffer with the incoming bytes,
then emit every complete `PREFERRED_CHUNK_SIZE`-byte chunk in slice order,
keeping the remainder buffered. -/
def AudioProcessor.add_audio (p : AudioProcessor) (audio_data : List Nat) :
    List (List Nat) × AudioProcessor :=
  let out := chunkLoop (p.buffer ++ audio_data)
  (out.1, ⟨out.2⟩)

/-- `AudioProcessor.get_remaining`: returns the buffered bytes if the buffer
is truthy (non-empty), else `None`.  As with every method, the translation
returns the value together with the post-call object state. -/
def AudioProcessor.get_remaining (p : AudioProcessor) :
    Option (List Nat) × AudioProcessor :=
  (if p.buffer.isEmpty then none else some p.buffer, p)

/-- Run a sequence of `add_audio` calls from a given accumulator, collecting
all emitted chunks in emission order. -/
def runAdds (p : AudioProcessor) : List (List Nat) → List (List Nat) × AudioProcessor
  | [] => ([], p)
  | a :: rest =>
    let out := p.add_audio a
    let tailOut := runAdds out.2 rest
    (out.1 ++ tailOut.1, tailOut.2)

/-! ### Basic chunkLoop lemmas -/

theorem chunkLoop_of_lt {buf : List Nat} (h : buf.length < PREFERRED_CHUNK_SIZE) :
    chunkLoop buf = ([], buf) := by
  rw [chunkLoop]
  simp [Nat.not_le.mpr h]

theorem chunkLoop_of_le {buf : List Nat} (h : PREFERRED_CHUNK_SIZE ≤ buf.length) :
    chunkLoop buf =
      ((buf.take PREFERRED_CHUNK_SIZE) :: (chunkLoop (buf.drop PREFERRED_CHUNK_SIZE)).1,
       (chunkLoop (buf.drop PREFERRED_CHUNK_SIZE)).2) := by
  rw [chunkLoop]
  simp [h]

/-- Round-trip at the loop level: the emitted chunks re-concatenated, followed
by the final buffer, give back the original buffer. -/
theorem chunkLoop_join (buf : List Nat) :
    (chunkLoop buf).1.flatten ++ (chunkLoop buf).2 = buf := by
  induction buf using chunkLoop.induct with
  | case1 buf h rest ih =>
    rw [chunkLoop_of_le h]
    simp only [List.flatten_cons, List.append_assoc]
    rw [ih]
    exact List.take_append_drop _ buf
  | case2 buf h =>
    rw [chunkLoop_of_lt (Nat.not_le.mp h)]
    simp

/-- Invariant: the residual buffer after the loop is strictly shorter than
`PREFERRED_CHUNK_SIZE`. -/
theorem chunkLoop_rest_lt (buf : List Nat) :
    (chunkLoop buf).2.length < PREFERRED_CHUNK_SIZE := by
  induction buf using chunkLoop.induct with
  | case1 buf h rest ih =>
    rw [chunkLoop_of_le h]
    exact ih
  | case2 buf h =>
    rw [chunkLoop_of_lt (Nat.not_le.mp h)]
    exact Nat.not_le.mp h

/-- Every chunk the loop emits is exactly `PREFERRED_CHUNK_SIZE` bytes. -/
theorem chunkLoop_chunk_length (buf : List Nat) :
    ∀ c ∈ (chunkLoop buf).1, c.length = PREFERRED_CHUNK_SIZE := by
  induction buf using chunkLoop.induct with
  | case1 buf h rest ih =>
    rw [chunkLoop_of_le h]
    intro c hc
    rcases List.mem_cons.mp hc with hc | hc
    · subst hc
      exact List.length_take_of_le h
    · exact ih c hc
  | case2 buf h =>
    rw [chunkLoop_of_lt (Nat.not_le.mp h)]
    intro c hc
    simp at hc

/-- Split invariance at the loop level: running the loop on `buf ++ extra` is
the same as running it on `buf`, then running it again on the residue with
`extra` appended. -/
theorem chunkLoop_append (buf extra : List Nat) :
    chunkLoop (buf ++ extra) =
      ((chunkLoop buf).1 ++ (chunkLoop ((chunkLoop buf).2 ++ extra)).1,
       (chunkLoop ((chunkLoop buf).2 ++ extra)).2) := by
  induction buf using chunkLoop.induct with
  | case1 buf h rest ih =>
    have hlen : PREFERRED_CHUNK_SIZE ≤ (buf ++ extra).length := by
      simp only [List.length_append]
      omega
    rw [chunkLoop_of_le hlen, chunkLoop_of_le h]
    rw [List.take_append_of_le_length h, List.drop_append_of_le_length h]
    rw [ih]
    simp
  | case2 buf h =>
    rw [chunkLoop_of_lt (Nat.not_le.mp h)]
    simp

/-- Generalized round trip for a run of `add_audio` calls: all chunks emitted,
re-concatenated, followed by the final buffer, equal the initial buffer
followed by all input bytes. -/
theorem runAdds_flatten (inputs : List (List Nat)) :
    ∀ p : AudioProcessor,
      (runAdds p inputs).1.flatten ++ (runAdds p inputs).2.buffer =
        p.buffer ++ inputs.flatten := by
  induction inputs with
  | nil => intro p; simp [runAdds]
  | cons a rest ih =>
    intro p
    simp only [runAdds, List.flatten_cons, List.flatten_append]
    have hstep := chunkLoop_join (p.buffer ++ a)
    have htail := ih ⟨(chunkLoop (p.buffer ++ a)).2⟩
    simp only [AudioProcessor.add_audio, List.flatten_append] at *
    rw [List.append_assoc, htail]
    rw [← List.append_assoc, hstep, List.append_assoc]

theorem runAdds_nil (p : AudioProcessor) : runAdds p [] = ([], p) := rfl

theorem runAdds_cons (p : AudioProcessor) (a : List Nat) (rest : List (List Nat)) :
    runAdds p (a :: rest) =
      ((p.add_audio a).1 ++ (runAdds (p.add_audio a).2 rest).1,
       (runAdds (p.add_audio a).2 rest).2) := rfl

theorem add_audio_eq (p : AudioProcessor) (a : List Nat) :
    p.add_audio a = ((chunkLoop (p.buffer ++ a)).1, ⟨(chunkLoop (p.buffer ++ a)).2⟩) := rfl


/-- C4 — Chunker split-invariance: two `add` calls on a fresh accumulator
emit, in total, the same chunk sequence and reach the same final state as a
single `add` of the concatenation. -/
theorem claim_C4_chunker_split_invariance (A B : List Nat) :
    ((AudioProcessor.fresh.add_audio A).1 ++
        ((AudioProcessor.fresh.add_audio A).2.add_audio B).1,
      ((AudioProcessor.fresh.add_audio A).2.add_audio B).2) =
      AudioProcessor.fresh.add_audio (A ++ B) := by
  simp only [AudioProcessor.add_audio, AudioProcessor.fresh, List.nil_append]
  have h := chunkLoop_append A B
  rw [h]

/-- C5 — Chunker round-trip: over any sequence of `add` calls from a fresh
accumulator, the concatenation of all emitted chunks followed by the bytes of
a final `get_remaining` equals the concatenation of all the inputs. -/
theorem claim_C5_chunker_round_trip (inputs : List (List Nat)) :
    (runAdds AudioProcessor.fresh inputs).1.flatten ++
        ((runAdds AudioProcessor.fresh inputs).2.get_remaining.1.getD []) =
      inputs.flatten := by
  have hgd : (runAdds AudioProcessor.fresh inputs).2.get_remaining.1.getD [] =
      (runAdds AudioProcessor.fresh inputs).2.buffer := by
    rcases hb : (runAdds AudioProcessor.fresh inputs).2.buffer with _ | ⟨x, xs⟩ <;>
      simp [AudioProcessor.get_remaining, hb]
  have h := runAdds_flatten inputs AudioProcessor.fresh
  have hfresh : AudioProcessor.fresh.buffer = [] := rfl
  rw [hfresh, List.nil_append] at h
  rw [hgd, h]

/-- C6 — ChunkAccumulator invariant: after each `add` the buffer is strictly
shorter than `PREFERRED_CHUNK_SIZE`, every emitted chunk is exactly
`PREFERRED_CHUNK_SIZE` bytes, chunks are emitted in arrival order (their
concatenation followed by the residual buffer reconstructs the input stream);
and the concrete scenario: adds of 10000, 10000 and 6000 bytes on a fresh
accumulator emit exactly one 24576-byte chunk and leave 1424 bytes buffered. -/
theorem claim_C6_chunker_invariant :
    (∀ (p : AudioProcessor) (bytes : List Nat),
       (p.add_audio bytes).2.buffer.length < PREFERRED_CHUNK_SIZE ∧
       (∀ c ∈ (p.add_audio bytes).1, c.length = PREFERRED_CHUNK_SIZE) ∧
       (p.add_audio bytes).1.flatten ++ (p.add_audio bytes).2.buffer =
         p.buffer ++ bytes) ∧
    (runAdds AudioProcessor.fresh
        [List.replicate 10000 0, List.replicate 10000 0, List.replicate 6000 0] =
      ([List.replicate 24576 0], ⟨List.replicate 1424 0⟩)) := by
  constructor
  · intro p bytes
    refine ⟨chunkLoop_rest_lt _, chunkLoop_chunk_length _, chunkLoop_join _⟩
  · have h1 : chunkLoop (List.replicate 10000 (0 : Nat)) = ([], List.replicate 10000 0) :=
      chunkLoop_of_lt (by simp only [List.length_replicate, PREFERRED_CHUNK_SIZE]; omega)
    have h2 : chunkLoop (List.replicate 20000 (0 : Nat)) = ([], List.replicate 20000 0) :=
      chunkLoop_of_lt (by simp only [List.length_replicate, PREFERRED_CHUNK_SIZE]; omega)
    have h26 : PREFERRED_CHUNK_SIZE ≤ (List.replicate 26000 (0 : Nat)).length := by
      simp only [List.length_replicate, PREFERRED_CHUNK_SIZE]; omega
    have h3 : chunkLoop (List.replicate 26000 (0 : Nat)) =
        ([List.replicate 24576 0], List.replicate 1424 0) := by
      rw [chunkLoop_of_le h26]
      rw [List.take_replicate, List.drop_replicate]
      have h4 : chunkLoop (List.replicate (26000 - PREFERRED_CHUNK_SIZE) (0 : Nat)) =
          ([], List.replicate (26000 - PREFERRED_CHUNK_SIZE) 0) :=
        chunkLoop_of_lt (by simp only [List.length_replicate, PREFERRED_CHUNK_SIZE]; omega)
      rw [h4]
      norm_num [PREFERRED_CHUNK_SIZE]
    have hc1 : List.replicate 10000 (0 : Nat) ++ List.replicate 10000 0 =
        List.replicate 20000 0 := by
      rw [← List.replicate_add]
    have hc2 : List.replicate 20000 (0 : Nat) ++ List.replicate 6000 0 =
        List.replicate 26000 0 := by
      rw [← List.replicate_add]
    rw [runAdds_cons, runAdds_cons, runAdds_cons, runAdds_nil]
    simp only [add_audio_eq, AudioProcessor.fresh, List.nil_append, h1, hc1, h2, hc2, h3,
      List.append_nil]

/-- C9 — `get_remaining` is a pure observer with a distinguished empty case:
it leaves the accumulator unchanged (repeated calls agree, a subsequent `add`
is unaffected), returns the buffered bytes when non-empty, and returns `none`
— never `some []` — when the buffer is empty. -/
theorem claim_C9_get_remaining_pure_observer (p : AudioProcessor) (x : List Nat) :
    p.get_remaining.2 = p ∧
    p.get_remaining.2.get_remaining.1 = p.get_remaining.1 ∧
    p.get_remaining.2.add_audio x = p.add_audio x ∧
    p.get_remaining.1 = (if p.buffer = [] then none else some p.buffer) ∧
    p.get_remaining.1 ≠ some [] := by
  refine ⟨rfl, rfl, rfl, ?_, ?_⟩
  · rcases hb : p.buffer with _ | ⟨y, ys⟩ <;> simp [AudioProcessor.get_remaining, hb]
  · rcases hb : p.buffer with _ | ⟨y, ys⟩ <;> simp [AudioProcessor.get_remaining, hb]

/-! ### Pacer / FrameStore: `BotAudioTrack` (bot_audio_track.py) -/

/-- The per-instance audio configuration set in `BotAudioTrack.__init__` and
never reassigned: `self.sample_rate = 24000`. -/
def BotAudioTrack.sample_rate : Nat := 24000

/-- `self.channels = 1`. -/
def BotAudioTrack.channels : Nat := 1

/-- `self.sample_width = 2`. -/
def BotAudioTrack.sample_width : Nat := 2

/-- `self.frame_samples = int(self.AUDIO_PTIME * self.sample_rate)` with
`AUDIO_PTIME = 0.020` seconds, i.e. `int(0.020 * 24000) = 480`. -/
def BotAudioTrack.frame_samples : Nat := 480

/-- Value of a standard base-64 alphabet character. -/
def b64CharVal (c : Char) : Option Nat :=
  if 'A' ≤ c ∧ c ≤ 'Z' then some (c.toNat - 65)
  else if 'a' ≤ c ∧ c ≤ 'z' then some (c.toNat - 97 + 26)
  else if '0' ≤ c ∧ c ≤ '9' then some (c.toNat - 48 + 52)
  else if c = '+' then some 62
  else if c = '/' then some 63
  else none

/-- Decode base-64 four-character groups into bytes; `=` padding is accepted
only at the very end; a trailing group of fewer than four characters is a
padding error (`none`). -/
def b64Groups : List Char → Option (List Nat)
  | [] => some []
  | c0 :: c1 :: c2 :: c3 :: rest =>
    match b64CharVal c0, b64CharVal c1 with
    | some v0, some v1 =>
      if c2 = '=' ∧ c3 = '=' ∧ rest = [] then
        some [v0 * 4 + v1 / 16]
      else
        match b64CharVal c2 with
        | some v2 =>
          if c3 = '=' ∧ rest = [] then
            some [v0 * 4 + v1 / 16, (v1 % 16) * 16 + v2 / 4]
          else
            match b64CharVal c3 with
            | some v3 =>
              match b64Groups rest with
              | some tail =>
                some ((v0 * 4 + v1 / 16) :: ((v1 % 16) * 16 + v2 / 4) ::
                      ((v2 % 4) * 64 + v3) :: tail)
              | none => none
            | none => none
        | none => none
    | _, _ => none
  | _ => none

/-- Model of `base64.b64decode` (default `validate=False`): characters outside
the base-64 alphabet and padding are discarded, then the remainder must be
well-formed four-character groups, else the call raises (`none`). -/
def b64decode (s : String) : Option (List Nat) :=
  b64Groups (s.data.filter (fun c => (b64CharVal c).isSome || c = '='))

/-- Model of `np.frombuffer(audio_bytes, dtype=np.int16)`: raises (`none`) if
the byte count is not a multiple of two, else reinterprets consecutive
little-endian byte pairs as signed 16-bit samples. -/
def bytesToInt16 : List Nat → Option (List Int)
  | [] => some []
  | [_] => none
  | lo :: hi :: rest =>
    (bytesToInt16 rest).map fun tail =>
      (if lo + 256 * hi < 32768 then ((lo + 256 * hi : Nat) : Int)
       else ((lo + 256 * hi : Nat) : Int) - 65536) :: tail

/-- The decoding pipeline of `enqueue_audio` up to the FIFO write:
`base64.b64decode`, `np.frombuffer(.., np.int16)`, and
`reshape(self.channels, -1)` (raises, i.e. `none`, unless the sample count is
an exact multiple of the channel count); `AudioFrame.from_ndarray` then wraps
the samples without changing them. -/
def decodeAudioPayload (s : String) : Option (List Int) :=
  match b64decode s with
  | none => none
  | some bytes =>
    match bytesToInt16 bytes with
    | none => none
    | some samples =>
      if samples.length % BotAudioTrack.channels = 0 then some samples else none

/-- `BotAudioTrack` mutable state: `readyState` (from `MediaStreamTrack`),
`_start`, `_timestamp`, and the sample contents of `self.audio_fifo`. -/
structure BotAudioTrack where
  readyState : String
  start : Option Nat
  timestamp : Nat
  audio_fifo : List Int
deriving Repr, DecidableEq

/-- A freshly constructed track: `readyState = "live"`, `_start = None`,
`_timestamp = 0`, empty FIFO. -/
def BotAudioTrack.fresh : BotAudioTrack :=
  { readyState := "live", start := none, timestamp := 0, audio_fifo := [] }

/-- `BotAudioTrack.stop`: `MediaStreamTrack.stop` moves a live track to the
terminal `"ended"` state. -/
def BotAudioTrack.stop (t : BotAudioTrack) : BotAudioTrack :=
  if t.readyState = "live" then { t with readyState := "ended" } else t

/-- `BotAudioTrack.enqueue_audio`: no-op unless `readyState == "live"`; decode
the payload and append the samples to the FIFO; any exception in the decode
chain is caught, logged, and leaves the FIFO untouched.  The function is
total: the caller never sees an exception. -/
def BotAudioTrack.enqueue_audio (t : BotAudioTrack) (base64_audio : String) :
    BotAudioTrack :=
  if t.readyState ≠ "live" then t
  else
    match decodeAudioPayload base64_audio with
    | none => t
    | some samples => { t with audio_fifo := t.audio_fifo ++ samples }

/-- `BotAudioTrack.flush_audio`: replaces the FIFO with a fresh empty one. -/
def BotAudioTrack.flush_audio (t : BotAudioTrack) : BotAudioTrack :=
  { t with audio_fifo := [] }

/-- Model of `av.audio.fifo.AudioFifo.read(n)` (default `partial=False`):
returns `None` when fewer than `n` samples are buffered, else exactly `n`
samples (which the accompanying state update consumes). -/
def fifoRead (fifo : List Int) (n : Nat) : Option (List Int) :=
  if fifo.length < n then none else some (fifo.take n)

/-- An emitted audio frame: the fields of `av.AudioFrame` that `recv` sets. -/
structure AudioFrame where
  format : String
  layout : String
  sample_rate : Nat
  samples : List Int
  pts : Nat
deriving Repr, DecidableEq

/-- The error raised by `recv` (`aiortc.mediastreams.MediaStreamError`),
optionally carrying a message. -/
structure MediaStreamError where
  msg : Option String
deriving Repr, DecidableEq

/-- Whether the body of the `try` block in `recv` raises.  The deterministic
model itself never fails, but the source's `except Exception` arm exists
precisely for runtime failures of the FIFO read / frame construction
(e.g. malformed buffered data), so that possibility is an input to the
model. -/
inductive TryOutcome where
  | normal
  | raised
deriving Repr, DecidableEq

/-- `BotAudioTrack.recv`: raise `MediaStreamError` unless live; on first call
record `_start` and reset `_timestamp`; advance `_timestamp` by
`frame_samples`; sleep to the additive deadline (no state effect); then read
`frame_samples` samples from the FIFO, substituting an all-zero frame when no
data is available, and stamp the frame with the advanced `_timestamp`.  If the
`try` body raises, the error is logged and `MediaStreamError` is re-raised. -/
def BotAudioTrack.recv (t : BotAudioTrack) (now : Nat) (inner : TryOutcome) :
    Except MediaStreamError (AudioFrame × BotAudioTrack) :=
  if t.readyState ≠ "live" then .error { msg := none }
  else
    let t1 := if t.start = none then { t with start := some now, timestamp := 0 } else t
    let ts := t1.timestamp + BotAudioTrack.frame_samples
    let t2 := { t1 with timestamp := ts }
    match inner with
    | .raised => .error { msg := some "Error processing audio frame" }
    | .normal =>
      match fifoRead t2.audio_fifo BotAudioTrack.frame_samples with
      | none =>
        .ok ({ format := "s16",
               layout := if BotAudioTrack.channels = 1 then "mono" else "stereo",
               sample_rate := BotAudioTrack.sample_rate,
               samples := List.replicate BotAudioTrack.frame_samples 0,
               pts := ts }, t2)
      | some data =>
        .ok ({ format := "s16",
               layout := if BotAudioTrack.channels = 1 then "mono" else "stereo",
               sample_rate := BotAudioTrack.sample_rate,
               samples := data,
               pts := ts },
             { t2 with audio_fifo := t2.audio_fifo.drop BotAudioTrack.frame_samples })

theorem recv_not_live (t : BotAudioTrack) (now : Nat) (inner : TryOutcome)
    (h : t.readyState ≠ "live") :
    t.recv now inner = Except.error { msg := none } := by
  unfold BotAudioTrack.recv
  rw [if_pos h]

theorem recv_live_raised (t : BotAudioTrack) (now : Nat)
    (h : t.readyState = "live") :
    t.recv now TryOutcome.raised =
      Except.error { msg := some "Error processing audio frame" } := by
  unfold BotAudioTrack.recv
  rw [if_neg (by simp [h])]

theorem fifoRead_none (fifo : List Int) (n : Nat) (h : fifo.length < n) :
    fifoRead fifo n = none := by
  simp [fifoRead, h]

theorem fifoRead_some (fifo : List Int) (n : Nat) (h : ¬ fifo.length < n) :
    fifoRead fifo n = some (fifo.take n) := by
  simp [fifoRead, h]

theorem recv_live_normal (t : BotAudioTrack) (now : Nat)
    (h : t.readyState = "live") :
    ∃ fr t2,
      t.recv now TryOutcome.normal = Except.ok (fr, t2) ∧
      fr.pts = (if t.start = none then 0 else t.timestamp) + BotAudioTrack.frame_samples ∧
      t2.timestamp = fr.pts ∧
      t2.readyState = "live" ∧
      t2.start ≠ none ∧
      t2.audio_fifo = (if t.audio_fifo.length < BotAudioTrack.frame_samples then t.audio_fifo
                       else t.audio_fifo.drop BotAudioTrack.frame_samples) ∧
      fr.samples = (if t.audio_fifo.length < BotAudioTrack.frame_samples then
                      List.replicate BotAudioTrack.frame_samples 0
                    else t.audio_fifo.take BotAudioTrack.frame_samples) ∧
      fr.samples.length = BotAudioTrack.frame_samples ∧
      fr.sample_rate = BotAudioTrack.sample_rate ∧
      fr.layout = "mono" := by
  unfold BotAudioTrack.recv
  rw [if_neg (by simp [h])]
  by_cases hlt : t.audio_fifo.length < BotAudioTrack.frame_samples
  · rcases hs : t.start with _ | sv <;>
      simp only [hs, reduceCtorEq, ite_true, ite_false, if_pos, if_neg] <;>
      simp only [fifoRead_none _ _ hlt] <;>
      exact ⟨_, _, rfl, by simp [hlt, h, hs, BotAudioTrack.channels]⟩
  · rcases hs : t.start with _ | sv <;>
      simp only [hs, reduceCtorEq, ite_true, ite_false, if_pos, if_neg] <;>
      simp only [fifoRead_some _ _ hlt] <;>
      exact ⟨_, _, rfl, by simp [hlt, h, hs, BotAudioTrack.channels, List.length_take, Nat.min_eq_left (Nat.not_lt.mp hlt)]⟩

/-- Tick the pacer once per feed: before each `recv` call an arbitrary amount
of data (the feed) is written to the FIFO, modelling the protocol handler
writing while the pacing loop reads; collect the emitted frame timestamps. -/
def recvPtsTrace (t : BotAudioTrack) : List (List Int) → List Nat
  | [] => []
  | feed :: rest =>
    let tfed := { t with audio_fifo := t.audio_fifo ++ feed }
    match tfed.recv 0 TryOutcome.normal with
    | .ok (fr, t2) => fr.pts :: recvPtsTrace t2 rest
    | .error _ => []

theorem recvPtsTrace_started (feeds : List (List Int)) :
    ∀ (t : BotAudioTrack) (sv : Nat), t.readyState = "live" → t.start = some sv →
      recvPtsTrace t feeds =
        (List.range feeds.length).map
          (fun k => t.timestamp + (k + 1) * BotAudioTrack.frame_samples) := by
  induction feeds with
  | nil => intro t sv h hs; simp [recvPtsTrace]
  | cons feed rest ih =>
    intro t sv h hs
    have hfl : ({ t with audio_fifo := t.audio_fifo ++ feed } : BotAudioTrack).readyState
        = "live" := h
    obtain ⟨fr, t2, heq, hpts, hts, hlive2, hstart2, -, -, -, -, -⟩ :=
      recv_live_normal { t with audio_fifo := t.audio_fifo ++ feed } 0 hfl
    rw [recvPtsTrace]
    simp only [heq]
    rcases hs2 : t2.start with _ | sv2
    · exact absurd hs2 hstart2
    · rw [ih t2 sv2 hlive2 hs2]
      simp only [hs, reduceCtorEq, ite_false] at hpts
      rw [hts, hpts]
      rw [List.length_cons, List.range_succ_eq_map, List.map_cons, List.map_map]
      refine List.cons_eq_cons.mpr ⟨by ring, ?_⟩
      apply List.map_congr_left
      intro k hk
      simp only [Function.comp_apply, Nat.succ_eq_add_one]
      ring

/-- C1 counterexample: on a fresh live pacer the very first emitted frame
carries presentation timestamp `frame_samples` (480), not `0`. -/
theorem claim_C1_counterexample_first_pts :
    (BotAudioTrack.fresh.recv 0 TryOutcome.normal).toOption.map (fun p => p.1.pts) =
      some BotAudioTrack.frame_samples ∧
    BotAudioTrack.frame_samples ≠ 0 := ⟨rfl, by decide⟩

/-- C1 (amended) — Pacer timestamp cadence: after `N` successive `recv` calls
on a fresh live pacer, with arbitrary amounts of data written to the FIFO
before each tick, the emitted presentation timestamps are
`frame_samples, 2*frame_samples, ..., N*frame_samples`: each tick advances the
timestamp by exactly `frame_samples` regardless of buffered data, but the
first frame is stamped `frame_samples`, not `0`. -/
theorem claim_C1_pacer_timestamp_cadence (feeds : List (List Int)) :
    recvPtsTrace BotAudioTrack.fresh feeds =
      (List.range feeds.length).map (fun k => (k + 1) * BotAudioTrack.frame_samples) := by
  cases feeds with
  | nil => simp [recvPtsTrace]
  | cons feed rest =>
    have hfl : ({ BotAudioTrack.fresh with audio_fifo :=
        BotAudioTrack.fresh.audio_fifo ++ feed } : BotAudioTrack).readyState = "live" := rfl
    obtain ⟨fr, t2, heq, hpts, hts, hlive2, hstart2, -, -, -, -, -⟩ :=
      recv_live_normal _ 0 hfl
    rw [recvPtsTrace]
    simp only [heq]
    rcases hs2 : t2.start with _ | sv2
    · exact absurd hs2 hstart2
    · rw [recvPtsTrace_started rest t2 sv2 hlive2 hs2]
      simp only [BotAudioTrack.fresh, reduceCtorEq, ite_true, if_pos] at hpts
      rw [hts, hpts]
      rw [List.length_cons, List.range_succ_eq_map, List.map_cons, List.map_map]
      refine List.cons_eq_cons.mpr ⟨by ring, ?_⟩
      apply List.map_congr_left
      intro k hk
      simp only [Function.comp_apply, Nat.succ_eq_add_one]
      ring

/-- C3 counterexample: a `recv` call on a live track whose `try` body raises
(e.g. on malformed buffered data) propagates `MediaStreamError` to the caller
instead of masking the error with a silence frame. -/
theorem claim_C3_counterexample_error_propagates :
    BotAudioTrack.fresh.readyState = "live" ∧
    BotAudioTrack.fresh.recv 0 TryOutcome.raised =
      Except.error { msg := some "Error processing audio frame" } :=
  ⟨rfl, rfl⟩

/-- C3 (amended) — recv failure semantics: `recv` succeeds exactly when the
track is live and the `try` body does not raise; it fails with
`MediaStreamError` both when the track is in the terminal stopped state and
when an internal error occurs while reading or constructing the frame (that
error is logged and re-raised, not masked); only the no-data case is masked
with silence. -/
theorem claim_C3_recv_failure_semantics (t : BotAudioTrack) (now : Nat)
    (inner : TryOutcome) :
    (∃ fr t2, t.recv now inner = Except.ok (fr, t2)) ↔
      (t.readyState = "live" ∧ inner = TryOutcome.normal) := by
  constructor
  · rintro ⟨fr, t2, heq⟩
    by_cases h : t.readyState = "live"
    · cases inner with
      | normal => exact ⟨h, rfl⟩
      | raised => rw [recv_live_raised t now h] at heq; exact absurd heq (by simp)
    · rw [recv_not_live t now inner h] at heq
      exact absurd heq (by simp)
  · rintro ⟨h, rfl⟩
    obtain ⟨fr, t2, heq, -, -, -, -, -, -, -, -, -⟩ := recv_live_normal t now h
    exact ⟨fr, t2, heq⟩

/-- C7 — Pacer underrun masking: a `recv` call on a live track with an empty
FIFO returns (rather than failing or blocking) a frame of exactly
`frame_samples` all-zero samples at the configured sample rate and mono
layout. -/
theorem claim_C7_underrun_silence (t : BotAudioTrack) (now : Nat)
    (hlive : t.readyState = "live") (hempty : t.audio_fifo = []) :
    ∃ t2 fr, t.recv now TryOutcome.normal = Except.ok (fr, t2) ∧
      fr.samples = List.replicate BotAudioTrack.frame_samples 0 ∧
      fr.samples.length = BotAudioTrack.frame_samples ∧
      fr.sample_rate = BotAudioTrack.sample_rate ∧
      fr.layout = "mono" := by
  obtain ⟨fr, t2, heq, -, -, -, -, -, hsamp, hlen, hsr, hlay⟩ :=
    recv_live_normal t now hlive
  refine ⟨t2, fr, heq, ?_, hlen, hsr, hlay⟩
  rw [hsamp, if_pos (by simp [hempty, BotAudioTrack.frame_samples])]

/-- Witness for C7: the underrun guarantee evaluated on a fresh live track. -/
theorem claim_C7_witness :
    ∃ t2 fr, BotAudioTrack.fresh.recv 0 TryOutcome.normal = Except.ok (fr, t2) ∧
      fr.samples = List.replicate BotAudioTrack.frame_samples 0 ∧
      fr.samples.length = BotAudioTrack.frame_samples ∧
      fr.sample_rate = BotAudioTrack.sample_rate ∧
      fr.layout = "mono" :=
  claim_C7_underrun_silence BotAudioTrack.fresh 0 rfl rfl

theorem enqueue_audio_not_live (t : BotAudioTrack) (s : String)
    (h : t.readyState ≠ "live") : t.enqueue_audio s = t := by
  unfold BotAudioTrack.enqueue_audio
  rw [if_pos h]

theorem enqueue_audio_of_none (t : BotAudioTrack) (s : String)
    (h : decodeAudioPayload s = none) : t.enqueue_audio s = t := by
  unfold BotAudioTrack.enqueue_audio
  by_cases hl : t.readyState = "live"
  · rw [if_neg (by simp [hl]), h]
  · rw [if_pos hl]

theorem enqueue_audio_of_some (t : BotAudioTrack) (s : String) (smp : List Int)
    (hl : t.readyState = "live") (h : decodeAudioPayload s = some smp) :
    t.enqueue_audio s = { t with audio_fifo := t.audio_fifo ++ smp } := by
  unfold BotAudioTrack.enqueue_audio
  rw [if_neg (by simp [hl]), h]

/-- C10 — FrameStore write totality and atomicity: `enqueue_audio` is a total
function (the caller never sees an exception); it is a no-op when the track is
not live; when the payload fails to decode (invalid base64, odd byte count, or
sample count not a multiple of the channel count) the FIFO is left completely
unchanged; and in every case the FIFO is either untouched or extended by
exactly the decoded samples — a failed write never partially commits. -/
theorem claim_C10_enqueue_total_atomic (t : BotAudioTrack) (s : String) :
    (t.readyState ≠ "live" → t.enqueue_audio s = t) ∧
    (decodeAudioPayload s = none → t.enqueue_audio s = t) ∧
    (∀ samples, decodeAudioPayload s = some samples → t.readyState = "live" →
       t.enqueue_audio s = { t with audio_fifo := t.audio_fifo ++ samples }) ∧
    ((t.enqueue_audio s).audio_fifo = t.audio_fifo ∨
      ∃ samples, decodeAudioPayload s = some samples ∧
        (t.enqueue_audio s).audio_fifo = t.audio_fifo ++ samples) := by
  refine ⟨fun h => enqueue_audio_not_live t s h,
          fun h => enqueue_audio_of_none t s h,
          fun samples hd hl => enqueue_audio_of_some t s samples hl hd, ?_⟩
  by_cases hl : t.readyState = "live"
  · cases hd : decodeAudioPayload s with
    | none => exact Or.inl (by rw [enqueue_audio_of_none t s hd])
    | some smp =>
      exact Or.inr ⟨smp, rfl, by rw [enqueue_audio_of_some t s smp hl hd]⟩
  · exact Or.inl (by rw [enqueue_audio_not_live t s hl])

/-- Witness for C10 at concrete inputs: bad padding is a no-op on a live
track, any payload is a no-op on a stopped track, and a valid payload appends
exactly its decoded samples. -/
theorem claim_C10_witness :
    BotAudioTrack.fresh.enqueue_audio "AAAAA" = BotAudioTrack.fresh ∧
    BotAudioTrack.fresh.stop.enqueue_audio "AAA=" = BotAudioTrack.fresh.stop ∧
    BotAudioTrack.fresh.enqueue_audio "AAA=" =
      { BotAudioTrack.fresh with audio_fifo := BotAudioTrack.fresh.audio_fifo ++ [0] } :=
  ⟨(claim_C10_enqueue_total_atomic BotAudioTrack.fresh "AAAAA").2.1 (by decide),
   (claim_C10_enqueue_total_atomic BotAudioTrack.fresh.stop "AAA=").1 (by decide),
   (claim_C10_enqueue_total_atomic BotAudioTrack.fresh "AAA=").2.2.1 [0] (by decide) rfl⟩

/-! ### ProtocolSession inbound dispatch: `OpenBot` (open_ai.py) -/

/-- The message-type discriminator strings of `ResponseMessageTypes`. -/
def ResponseMessageTypes.sessionCreated : String := "session.created"

def ResponseMessageTypes.sessionUpdated : String := "session.updated"

def ResponseMessageTypes.responseCreated : String := "response.created"

def ResponseMessageTypes.responseDone : String := "response.done"

def ResponseMessageTypes.responseAudioDone : String := "response.audio.done"

def ResponseMessageTypes.responseAudioDelta : String := "response.audio.delta"

def ResponseMessageTypes.responseAudioTranscriptDelta : String := "response.audio_transcript.delta"

def ResponseMessageTypes.rateLimitUpdated : String := "rate_limit.updated"

def ResponseMessageTypes.inputAudioBufferSpeechStarted : String := "input_audio_buffer.speech_started"

def ResponseMessageTypes.inputAudioBufferSpeechStopped : String := "input_audio_buffer.speech_stopped"

def ResponseMessageTypes.error : String := "error"

/-- The state of `OpenBot` the inbound handlers touch: its `audio_track`. -/
structure OpenBot where
  audio_track : BotAudioTrack
deriving Repr, DecidableEq

/-- A parsed inbound envelope: the `type` discriminator
(`message_data.get("type", "unknown")`) and the optional `delta` payload
(`message_data.get("delta")`). -/
structure Envelope where
  type : String
  delta : Option String
deriving Repr, DecidableEq

/-- `_handle_session_created`: logs only. -/
def OpenBot.handle_session_created (b : OpenBot) (_m : Envelope) : OpenBot := b

/-- `_handle_audio_delta`: if the envelope carries a truthy `delta`, enqueue
it on the audio track. -/
def OpenBot.handle_audio_delta (b : OpenBot) (m : Envelope) : OpenBot :=
  match m.delta with
  | none => b
  | some d =>
    if d = "" then b
    else { b with audio_track := b.audio_track.enqueue_audio d }

/-- `_handle_audio_transcript_delta`: empty body. -/
def OpenBot.handle_audio_transcript_delta (b : OpenBot) (_m : Envelope) : OpenBot := b

/-- `_handle_session_updated`: logs only. -/
def OpenBot.handle_session_updated (b : OpenBot) (_m : Envelope) : OpenBot := b

/-- `_handle_response_created`: logs only. -/
def OpenBot.handle_response_created (b : OpenBot) (_m : Envelope) : OpenBot := b

/-- `_handle_response_done`: logs only. -/
def OpenBot.handle_response_done (b : OpenBot) (_m : Envelope) : OpenBot := b

/-- `_handle_audio_done`: logs only. -/
def OpenBot.handle_audio_done (b : OpenBot) (_m : Envelope) : OpenBot := b

/-- `_handle_rate_limit`: logs only. -/
def OpenBot.handle_rate_limit (b : OpenBot) (_m : Envelope) : OpenBot := b

/-- `_handle_error`: logs only. -/
def OpenBot.handle_error (b : OpenBot) (_m : Envelope) : OpenBot := b

/-- `_handle_audio_buffer_speech_started`: flushes the audio FIFO
(barge-in). -/
def OpenBot.handle_audio_buffer_speech_started (b : OpenBot) (_m : Envelope) : OpenBot :=
  { b with audio_track := b.audio_track.flush_audio }

/-- `_handle_audio_buffer_speech_stopped`: logs only. -/
def OpenBot.handle_audio_buffer_speech_stopped (b : OpenBot) (_m : Envelope) : OpenBot := b

/-- `_handle_message`: exact-match dispatch over the handler table of the
source, reproduced entry for entry — including the source's wiring of the
`input_audio_buffer.speech_stopped` key to `_handle_audio_delta` and of the
`error` key to `_handle_audio_buffer_speech_stopped`; unknown types are
logged and ignored. -/
def OpenBot.handle_message (b : OpenBot) (m : Envelope) : OpenBot :=
  if m.type = ResponseMessageTypes.sessionCreated then b.handle_session_created m
  else if m.type = ResponseMessageTypes.responseAudioDelta then b.handle_audio_delta m
  else if m.type = ResponseMessageTypes.responseAudioTranscriptDelta then
    b.handle_audio_transcript_delta m
  else if m.type = ResponseMessageTypes.sessionUpdated then b.handle_session_updated m
  else if m.type = ResponseMessageTypes.responseCreated then b.handle_response_created m
  else if m.type = ResponseMessageTypes.responseDone then b.handle_response_done m
  else if m.type = ResponseMessageTypes.responseAudioDone then b.handle_audio_done m
  else if m.type = ResponseMessageTypes.rateLimitUpdated then b.handle_rate_limit m
  else if m.type = ResponseMessageTypes.inputAudioBufferSpeechStarted then
    b.handle_audio_buffer_speech_started m
  else if m.type = ResponseMessageTypes.inputAudioBufferSpeechStopped then
    b.handle_audio_delta m
  else if m.type = ResponseMessageTypes.error then
    b.handle_audio_buffer_speech_stopped m
  else b

/-- The `_listen` read loop: envelopes are dispatched synchronously, one at a
time, in arrival order. -/
def OpenBot.processMessages (b : OpenBot) : List Envelope → OpenBot
  | [] => b
  | m :: rest => OpenBot.processMessages (b.handle_message m) rest

/-- C2 evidence: a live bot that processes an envelope whose discriminator is
`input_audio_buffer.speech_stopped` but which carries a `delta` field has that
audio written into its FIFO (the table wires this key to the audio-delta
handler), contradicting "informational only"; the `error` key, wired to the
speech-stopped handler, indeed only logs. -/
theorem claim_C2_code_bug_evidence :
    (OpenBot.handle_message { audio_track := BotAudioTrack.fresh }
        { type := ResponseMessageTypes.inputAudioBufferSpeechStopped,
          delta := some "AAE=" }).audio_track.audio_fifo = [256] ∧
    BotAudioTrack.fresh.audio_fifo = [] ∧
    (OpenBot.handle_message { audio_track := BotAudioTrack.fresh }
        { type := ResponseMessageTypes.error, delta := none }) =
      { audio_track := BotAudioTrack.fresh } := by
  refine ⟨?_, rfl, ?_⟩ <;> decide

/-- C8 — Barge-in ordering: for every bot state with a live track, processing
`E1` (speech-started, which flushes the FIFO) followed by `E2` (audio-delta
with a valid payload) leaves exactly `E2`'s decoded audio in the FIFO: the
flush side-effect of `E1` is applied before `E2`'s write because envelopes
are dispatched synchronously in arrival order. -/
theorem claim_C8_barge_in_ordering (b : OpenBot) (d : String) (samples : List Int)
    (hlive : b.audio_track.readyState = "live") (hne : d ≠ "")
    (hdec : decodeAudioPayload d = some samples) :
    (OpenBot.processMessages b
        [{ type := ResponseMessageTypes.inputAudioBufferSpeechStarted, delta := none },
         { type := ResponseMessageTypes.responseAudioDelta, delta := some d }]
      ).audio_track.audio_fifo = samples := by
  show ((b.handle_message
      { type := ResponseMessageTypes.inputAudioBufferSpeechStarted, delta := none }
    ).handle_message
      { type := ResponseMessageTypes.responseAudioDelta, delta := some d }
    ).audio_track.audio_fifo = samples
  have h1 : b.handle_message
      { type := ResponseMessageTypes.inputAudioBufferSpeechStarted, delta := none } =
      { b with audio_track := b.audio_track.flush_audio } := rfl
  rw [h1]
  have h2 : OpenBot.handle_message { b with audio_track := b.audio_track.flush_audio }
      { type := ResponseMessageTypes.responseAudioDelta, delta := some d } =
      OpenBot.handle_audio_delta { b with audio_track := b.audio_track.flush_audio }
        { type := ResponseMessageTypes.responseAudioDelta, delta := some d } := rfl
  rw [h2]
  unfold OpenBot.handle_audio_delta
  simp only [if_neg hne]
  have hfl : (b.audio_track.flush_audio).readyState = "live" := hlive
  rw [enqueue_audio_of_some _ d samples hfl hdec]
  simp [BotAudioTrack.flush_audio]

/-- Witness for C8 on a fresh bot with a concrete one-sample payload. -/
theorem claim_C8_witness :
    (OpenBot.processMessages { audio_track := BotAudioTrack.fresh }
        [{ type := ResponseMessageTypes.inputAudioBufferSpeechStarted, delta := none },
         { type := ResponseMessageTypes.responseAudioDelta, delta := some "AAA=" }]
      ).audio_track.audio_fifo = [0] :=
  claim_C8_barge_in_ordering { audio_track := BotAudioTrack.fresh } "AAA=" [0]
    rfl (by decide) (by decide)

/-- Witness for C6: the invariant theorem's concrete 10000/10000/6000
scenario. -/
theorem claim_C6_witness :
    runAdds AudioProcessor.fresh
        [List.replicate 10000 0, List.replicate 10000 0, List.replicate 6000 0] =
      ([List.replicate 24576 0], ⟨List.replicate 1424 0⟩) :=
  claim_C6_chunker_invariant.2

/-- Witness for C9: `get_remaining` on a one-byte buffer returns the buffered
bytes. -/
theorem claim_C9_witness :
    (AudioProcessor.get_remaining ⟨[7]⟩).1 = some [7] := by
  have h := (claim_C9_get_remaining_pure_observer ⟨[7]⟩ []).2.2.2.1
  simpa using h
